import Mathlib

/-!
Verification of the Spile server core against its natural-language
specification.  Each section embeds one source file of the repository as
Lean definitions and proves (or refutes) the claims about it.

Sources embedded:
* `src/protocol/fields/long.ts` — the 64-bit signed long field codec.
* `src/unnamed/part_000` — the orchestrator (`bootstrap` / `stop`).
* `src/unnamed/part_001` — the protocol listener (accept loop, session
  loop, `close` sweep).
* `src/lib/utils/EventBus.ts` — the global event bus (`on` / `off` / `send`).
-/

/-! ## Binary values and the JS `DataView` constructor

`long.ts` builds a `Uint8Array` and then evaluates `new DataView(bytes)`.
In JavaScript the first argument of the `DataView` constructor must be an
`ArrayBuffer` (internal slot check); passing a `Uint8Array` (a *view*, whose
buffer is `bytes.buffer`) throws a `TypeError`.  We model a JS binary value
as either an array buffer or a typed-array view over one, and `DataView`
construction as the fallible operation it is. -/

/-- A byte is a natural number below 256. -/
abbrev Byte := Nat

/-- A JS binary object: either a raw `ArrayBuffer` or a `Uint8Array` view. -/
inductive JSBinary where
  | arrayBuffer (data : List Byte)
  | uint8Array (data : List Byte)
  deriving Repr, DecidableEq

/-- The bytes held by a JS binary object (a fresh `Uint8Array n` holds
`n` zero bytes). -/
def JSBinary.bytes : JSBinary → List Byte
  | .arrayBuffer d => d
  | .uint8Array d => d

/-- A `DataView`: an addressable window over the bytes of an `ArrayBuffer`. -/
structure DataView where
  data : List Byte
  deriving Repr, DecidableEq

/-- `new DataView(x)`: succeeds only when `x` is an `ArrayBuffer`; a
`Uint8Array` argument throws `TypeError` (modelled as `none`). -/
def DataView.construct : JSBinary → Option DataView
  | .arrayBuffer d => some ⟨d⟩
  | .uint8Array _ => none

/-! ### Big-endian byte serialisation

`DataView.setBigInt64` / `getBigInt64` with the little-endian flag omitted
use big-endian two's-complement byte order. -/

/-- Big-endian bytes of `n`, `w` bytes wide (most significant first). -/
def toBytesBE : Nat → Nat → List Byte
  | 0, _ => []
  | w + 1, n => toBytesBE w (n / 256) ++ [n % 256]

/-- Read big-endian bytes back into a natural number. -/
def fromBytesBE (bs : List Byte) : Nat :=
  bs.foldl (fun acc b => acc * 256 + b) 0

/-- Overwrite `src.length` bytes of `dst` starting at `off`. -/
def writeBytes (dst : List Byte) (off : Nat) (src : List Byte) : List Byte :=
  dst.take off ++ src ++ dst.drop (off + src.length)

/-- `view.setBigInt64(off, v)`: stores the 8 big-endian bytes of the
two's-complement representation `v mod 2^64`. -/
def DataView.setBigInt64 (view : DataView) (off : Nat) (v : Int) : DataView :=
  ⟨writeBytes view.data off (toBytesBE 8 (v % (2 ^ 64 : Int)).toNat)⟩

/-- `view.getBigInt64(off)`: reads 8 big-endian bytes at `off` as a
two's-complement 64-bit signed integer. -/
def DataView.getBigInt64 (view : DataView) (off : Nat) : Int :=
  let n := fromBytesBE ((view.data.drop off).take 8)
  if n < 2 ^ 63 then (n : Int) else (n : Int) - 2 ^ 64

/-! ### The byte consumer

The consumer class itself is not part of the visible sources.
Modelled from the spec: the Byte Consumer (§4.2) is a stateful cursor over
the incoming byte stream with a buffer and a read position;
`readWithView(n)` returns a zero-copy view plus an offset after at least
`n` unread bytes are buffered, advancing the read position, and fails when
the stream ends first.  For a consumer pre-loaded with exactly its buffer,
that means success iff `n` bytes remain beyond the position. -/

structure Consumer where
  data : List Byte
  pos : Nat
  deriving Repr, DecidableEq

/-- `consumer.readWithView(n)`: yields `(offset, view)` over the buffered
bytes and the advanced consumer, or fails (stream ended) when fewer than
`n` unread bytes will ever be available. -/
def Consumer.readWithView (c : Consumer) (n : Nat) :
    Option ((Nat × DataView) × Consumer) :=
  if c.pos + n ≤ c.data.length then
    some ((c.pos, ⟨c.data⟩), ⟨c.data, c.pos + n⟩)
  else
    none

/-! ### The `long` field codec (`src/protocol/fields/long.ts`)

Modelled from the spec for the missing `field_codec.ts`: the
`FieldCodecBuilder` merely bundles the `validate` / `encode` / `decode`
closures into an immutable descriptor (§4.1); the closures themselves are
taken verbatim from `long.ts`.  `encode` is fallible in the model because
the closure's body can throw. -/

structure FieldCodec (T : Type) where
  name : String
  validate : T → Bool
  encode : T → Option (List Byte)
  decode : Consumer → Option (T × Consumer)

def MAX_LONG : Int := 9223372036854775807
def MIN_LONG : Int := -9223372036854775808

/-- The `long` codec exactly as built in `long.ts`:
`validate` compares against `MIN_LONG` / `MAX_LONG`; `encode` allocates
`new Uint8Array(8)`, evaluates `new DataView(bytes)` — which throws, since
`bytes` is a `Uint8Array`, not an `ArrayBuffer` — then would call
`setBigInt64` and return the bytes; `decode` reads an 8-byte view and
calls `getBigInt64`. -/
def long : FieldCodec Int where
  name := "long"
  validate := fun value => decide (value ≥ MIN_LONG) && decide (value ≤ MAX_LONG)
  encode := fun value => do
    let bytes := JSBinary.uint8Array (List.replicate 8 0)
    let view ← DataView.construct bytes
    let view := view.setBigInt64 0 value
    pure view.data
  decode := fun consumer => do
    let (ov, consumer) ← consumer.readWithView 8
    pure (DataView.getBigInt64 ov.2 ov.1, consumer)

/-- The one-character repair of the `encode` closure: construct the view
over `bytes.buffer` (the underlying `ArrayBuffer`) instead of `bytes`. -/
def long_encode_fixed (value : Int) : Option (List Byte) := do
  let buffer := JSBinary.arrayBuffer (List.replicate 8 0)
  let view ← DataView.construct buffer
  let view := view.setBigInt64 0 value
  pure view.data

/-! ### Serialisation lemmas -/

theorem toBytesBE_length (w n : Nat) : (toBytesBE w n).length = w := by
  induction w generalizing n with
  | zero => rfl
  | succ w ih => simp [toBytesBE, ih]

theorem fromBytesBE_append_singleton (xs : List Byte) (b : Byte) :
    fromBytesBE (xs ++ [b]) = fromBytesBE xs * 256 + b := by
  simp [fromBytesBE, List.foldl_append]

theorem fromBytesBE_toBytesBE (w n : Nat) :
    fromBytesBE (toBytesBE w n) = n % 256 ^ w := by
  induction w generalizing n with
  | zero => simp [toBytesBE, fromBytesBE, Nat.mod_one]
  | succ w ih =>
    rw [toBytesBE, fromBytesBE_append_singleton, ih]
    rw [pow_succ']
    rw [Nat.mod_mul]
    ring

theorem readWithView_eq (d : List Byte) (p n : Nat) (h : p + n ≤ d.length) :
    Consumer.readWithView ⟨d, p⟩ n = some ((p, ⟨d⟩), ⟨d, p + n⟩) := by
  rw [Consumer.readWithView]
  exact if_pos h

theorem long_decode_eq (bs : List Byte) (h : 8 ≤ bs.length) :
    long.decode ⟨bs, 0⟩ = some (DataView.getBigInt64 ⟨bs⟩ 0, ⟨bs, 8⟩) := by
  have hbind : long.decode ⟨bs, 0⟩ = (Consumer.readWithView ⟨bs, 0⟩ 8).bind
      (fun x => some (DataView.getBigInt64 x.1.2 x.1.1, x.2)) := rfl
  rw [hbind, readWithView_eq bs 0 8 (by omega)]
  rfl

theorem long_encode_fixed_eq (v : Int) :
    long_encode_fixed v = some (toBytesBE 8 (v % (2 ^ 64 : Int)).toNat) := by
  have hstep : long_encode_fixed v =
      some (writeBytes (List.replicate 8 0) 0 (toBytesBE 8 (v % (2 ^ 64 : Int)).toNat)) := rfl
  rw [hstep, writeBytes, toBytesBE_length]
  rw [List.take_zero, List.drop_eq_nil_of_le (by simp)]
  simp only [List.nil_append, List.append_nil]

/-- The repaired encode round-trips through `decode` on a consumer
pre-loaded with exactly the produced 8 bytes: the encode closure's slip
(`bytes` instead of `bytes.buffer`) is the only obstacle to claim C1. -/
theorem long_fixed_roundTrip (v : Int) (hv : long.validate v = true) :
    ∃ bytes, long_encode_fixed v = some bytes ∧ bytes.length = 8 ∧
      long.decode ⟨bytes, 0⟩ = some (v, ⟨bytes, 8⟩) := by
  have hrange : -(2 ^ 63) ≤ v ∧ v ≤ 2 ^ 63 - 1 := by
    simp only [long, MIN_LONG, MAX_LONG, Bool.and_eq_true, decide_eq_true_eq] at hv
    constructor <;> [omega; omega]
  refine ⟨toBytesBE 8 (v % (2 ^ 64 : Int)).toNat, long_encode_fixed_eq v, toBytesBE_length _ _, ?_⟩
  have hlen : (toBytesBE 8 (v % (2 ^ 64 : Int)).toNat).length = 8 := toBytesBE_length _ _
  have hmod : (0 : Int) ≤ v % (2 ^ 64 : Int) ∧ v % (2 ^ 64 : Int) < 2 ^ 64 := by
    constructor
    · exact Int.emod_nonneg v (by norm_num)
    · exact Int.emod_lt_of_pos v (by norm_num)
  have hcast : ((v % (2 ^ 64 : Int)).toNat : Int) = v % (2 ^ 64 : Int) :=
    Int.toNat_of_nonneg hmod.1
  have hfrom : fromBytesBE (toBytesBE 8 (v % (2 ^ 64 : Int)).toNat)
      = (v % (2 ^ 64 : Int)).toNat := by
    rw [fromBytesBE_toBytesBE]
    apply Nat.mod_eq_of_lt
    have : ((v % (2 ^ 64 : Int)).toNat : Int) < (2 ^ 64 : Int) := by
      rw [hcast]; exact hmod.2
    have h256 : (256 : Nat) ^ 8 = 2 ^ 64 := by norm_num
    rw [h256]
    exact_mod_cast this
  rw [long_decode_eq _ (le_of_eq hlen.symm)]
  have hget : DataView.getBigInt64 ⟨toBytesBE 8 (v % (2 ^ 64 : Int)).toNat⟩ 0 = v := by
    rw [DataView.getBigInt64]
    simp only [List.drop_zero]
    rw [List.take_of_length_le (le_of_eq hlen)]
    rw [hfrom]
    by_cases hneg : 0 ≤ v
    · have hlt : (v % (2 ^ 64 : Int)).toNat < 2 ^ 63 := by omega
      simp only [if_pos hlt]
      omega
    · have hge : ¬ (v % (2 ^ 64 : Int)).toNat < 2 ^ 63 := by omega
      simp only [if_neg hge]
      omega
  rw [hget]

/-- Claim C1 (code bug): the `long` codec's round-trip law is violated by
the code as written: `encode` evaluates `new DataView(bytes)` on the
`Uint8Array` itself instead of its underlying `ArrayBuffer`, which throws a
`TypeError`, so `encode(v)` produces no 8-byte sequence for any `v` — not
even for `v = 0`, which passes `validate`. -/
theorem long_encode_typeError :
    long.validate 0 = true ∧ long.encode 0 = none ∧ ∀ v : Int, long.encode v = none :=
  ⟨by decide, rfl, fun _ => rfl⟩

/-- Claim C6: `long.validate` accepts exactly the representable range of a
64-bit signed integer, `−2^63 ≤ v ≤ 2^63 − 1`; in particular it rejects
`2^63` and `−2^63 − 1` and accepts `2^63 − 1` and `−2^63`. -/
theorem long_validate_range :
    (∀ v : Int, long.validate v = true ↔ -(2 ^ 63) ≤ v ∧ v ≤ 2 ^ 63 - 1) ∧
    long.validate 9223372036854775808 = false ∧
    long.validate (-9223372036854775809) = false ∧
    long.validate 9223372036854775807 = true ∧
    long.validate (-9223372036854775808) = true := by
  refine ⟨fun v => ?_, by decide, by decide, by decide, by decide⟩
  simp only [long, MIN_LONG, MAX_LONG, Bool.and_eq_true, decide_eq_true_eq, ge_iff_le]
  constructor
  · rintro ⟨h1, h2⟩; constructor <;> omega
  · rintro ⟨h1, h2⟩; constructor <;> omega

/-! ## The orchestrator (`src/unnamed/part_000`)

`bootstrap()` awaits `Promise.all([rcon.listen(), proto.listen(),
query.listen()])`; on success it clears `isBooting` and logs readiness; its
`catch` block logs-and-`stop()`s while `isBooting` is still set, and only
logs otherwise.  `stop()` awaits `Promise.all` of the three `close()`
calls, logs, destroys the logging sink and calls `process.exit()`; its
`catch` block writes to `console.error` (the raw fallback, not the logger)
and calls `process.exit(1)`.

Listeners are indexed `0 = rcon`, `1 = proto`, `2 = query`.  Each fallible
collaborator call is given its outcome (`none` = resolves, `some e` =
rejects with error `e`) through an environment record; the observable
behaviour is a trace of actions. -/

inductive OrchAction where
  /-- `log.error("An error occurred while booting!", err)` -/
  | logBootError (e : Nat)
  /-- `log.warn("The server will now stop.")` -/
  | logWillStop
  /-- `log.error("An error occurred in Spile! ...", err)` — post-boot branch -/
  | logRuntimeError (e : Nat)
  /-- `log.info("We're ready to roll boss!")` -/
  | logReady
  /-- `log.warn("Stopping server.")` -/
  | logStopping
  /-- `listener.close()` invoked on listener `i` -/
  | closeCalled (i : Fin 3)
  /-- `log.info("Thanks for playing!")` -/
  | logThanks
  /-- `log.destroySyncUnsafe()` invoked -/
  | destroyCalled
  /-- `console.error(...)` — the raw fallback, not the primary logger -/
  | consoleError (e : Nat)
  /-- `process.exit(code)`; the argument-less call exits with code `0` -/
  | processExit (code : Nat)
  deriving Repr, DecidableEq

/-- The module-level `isBooting` flag (`let isBooting = true`). -/
structure OrchState where
  isBooting : Bool
  deriving Repr, DecidableEq

def initialOrchState : OrchState := ⟨true⟩

/-- Outcomes of the collaborator calls made by `stop()`. -/
structure StopEnv where
  closeErr : Fin 3 → Option Nat
  destroyErr : Option Nat

/-- Outcomes of the three `listen()` calls awaited by `bootstrap()`. -/
structure BootEnv where
  listenErr : Fin 3 → Option Nat

/-- `Promise.all` over three eagerly-invoked operations: rejects with the
first error among them, resolves when none errors.  All three operations
have been started regardless of the outcome. -/
def promiseAllFirstErr (f : Fin 3 → Option Nat) : Option Nat :=
  match f 0 with
  | some e => some e
  | none => match f 1 with
    | some e => some e
    | none => f 2

/-- `stop()` from `part_000`: logs, awaits the three concurrent `close()`
calls, logs, destroys the sink, exits 0; any rejection or throw falls to
the `catch` block, which writes to `console.error` and exits 1 with no
further cleanup. -/
def stop (env : StopEnv) (st : OrchState) : OrchState × List OrchAction :=
  let closes := [OrchAction.closeCalled 0, OrchAction.closeCalled 1, OrchAction.closeCalled 2]
  match promiseAllFirstErr env.closeErr with
  | some e =>
    (st, OrchAction.logStopping :: closes
      ++ [OrchAction.consoleError e, OrchAction.processExit 1])
  | none =>
    match env.destroyErr with
    | some e =>
      (st, OrchAction.logStopping :: closes
        ++ [OrchAction.logThanks, OrchAction.destroyCalled,
            OrchAction.consoleError e, OrchAction.processExit 1])
    | none =>
      (st, OrchAction.logStopping :: closes
        ++ [OrchAction.logThanks, OrchAction.destroyCalled, OrchAction.processExit 0])

/-- The `catch` block of `bootstrap()`: while `isBooting` is still set the
error is fatal (log, warn, `await stop()`); afterwards it is only logged. -/
def bootstrapCatch (e : Nat) (senv : StopEnv) (st : OrchState) :
    OrchState × List OrchAction :=
  if st.isBooting then
    let r := stop senv st
    (r.1, OrchAction.logBootError e :: OrchAction.logWillStop :: r.2)
  else
    (st, [OrchAction.logRuntimeError e])

/-- `bootstrap()` from `part_000`: awaits the three `listen()` calls; on
success clears `isBooting` and logs readiness; a rejection reaches the
`catch` block. -/
def bootstrap (benv : BootEnv) (senv : StopEnv) (st : OrchState) :
    OrchState × List OrchAction :=
  match promiseAllFirstErr benv.listenErr with
  | none => ({ st with isBooting := false }, [OrchAction.logReady])
  | some e => bootstrapCatch e senv st

theorem closeCalled_mem_stop (env : StopEnv) (st : OrchState) (i : Fin 3) :
    OrchAction.closeCalled i ∈ (stop env st).2 := by
  fin_cases i <;>
    rcases hc : promiseAllFirstErr env.closeErr with _ | e <;>
      rcases hd : env.destroyErr with _ | e2 <;>
        simp [stop, hc, hd]

theorem logReady_not_mem_stop (env : StopEnv) (st : OrchState) :
    OrchAction.logReady ∉ (stop env st).2 := by
  rcases hc : promiseAllFirstErr env.closeErr with _ | e <;>
    rcases hd : env.destroyErr with _ | e2 <;>
      simp [stop, hc, hd]

theorem stop_preserves_isBooting (env : StopEnv) (st : OrchState) :
    (stop env st).1 = st := by
  rcases hc : promiseAllFirstErr env.closeErr with _ | e <;>
    rcases hd : env.destroyErr with _ | e2 <;>
      simp [stop, hc, hd]

/-- Claim C2: if one of the three `listen()` calls rejects while the
orchestrator is still booting, `bootstrap()` logs the error and then
invokes `stop()`, whose trace contains a `close()` call on every one of
the three listeners; the booting flag is never cleared on that path and
the ready transition is never logged, so `Running` is never reached. -/
theorem bootstrap_boot_failure (benv : BootEnv) (senv : StopEnv) (e : Nat)
    (hfail : promiseAllFirstErr benv.listenErr = some e) :
    (bootstrap benv senv initialOrchState).1.isBooting = true ∧
    (bootstrap benv senv initialOrchState).2 =
      OrchAction.logBootError e :: OrchAction.logWillStop ::
        (stop senv initialOrchState).2 ∧
    (∀ i : Fin 3, OrchAction.closeCalled i ∈ (bootstrap benv senv initialOrchState).2) ∧
    OrchAction.logReady ∉ (bootstrap benv senv initialOrchState).2 := by
  have hb : bootstrap benv senv initialOrchState =
      ((stop senv initialOrchState).1,
        OrchAction.logBootError e :: OrchAction.logWillStop ::
          (stop senv initialOrchState).2) := by
    simp [bootstrap, hfail, bootstrapCatch, initialOrchState]
  refine ⟨?_, ?_, ?_, ?_⟩
  · rw [hb, stop_preserves_isBooting]
    rfl
  · rw [hb]
  · intro i
    rw [hb]
    exact List.mem_cons_of_mem _ (List.mem_cons_of_mem _ (closeCalled_mem_stop senv _ i))
  · rw [hb]
    intro hmem
    simp only [List.mem_cons] at hmem
    rcases hmem with h | h | h
    · exact OrchAction.noConfusion h
    · exact OrchAction.noConfusion h
    · exact logReady_not_mem_stop senv _ h

/-- Witness for C2: the `proto` listener (index 1) rejects with error 7 on
a boot from the initial state; `close()` is attempted on all three
listeners and readiness is never logged. -/
theorem bootstrap_boot_failure_witness :
    promiseAllFirstErr (fun i => if i = 1 then some 7 else none) = some 7 ∧
    ((bootstrap ⟨fun i => if i = 1 then some 7 else none⟩ ⟨fun _ => none, none⟩
        initialOrchState).1.isBooting = true ∧
      (bootstrap ⟨fun i => if i = 1 then some 7 else none⟩ ⟨fun _ => none, none⟩
          initialOrchState).2 =
        OrchAction.logBootError 7 :: OrchAction.logWillStop ::
          (stop ⟨fun _ => none, none⟩ initialOrchState).2 ∧
      (∀ i : Fin 3, OrchAction.closeCalled i ∈
        (bootstrap ⟨fun i => if i = 1 then some 7 else none⟩ ⟨fun _ => none, none⟩
          initialOrchState).2) ∧
      OrchAction.logReady ∉
        (bootstrap ⟨fun i => if i = 1 then some 7 else none⟩ ⟨fun _ => none, none⟩
          initialOrchState).2) :=
  ⟨rfl, bootstrap_boot_failure ⟨fun i => if i = 1 then some 7 else none⟩
    ⟨fun _ => none, none⟩ 7 rfl⟩

/-- Claim C3: `stop()` invokes `close()` on all three listeners
concurrently (all three calls are made before the batch is awaited), then
flushes and releases the logging sink and exits with code 0 when no step
errors; if the close batch rejects, or the sink teardown throws, the error
goes to the raw `console.error` fallback — never through the primary
logger — and the process exits with code 1, with nothing further
attempted. -/
theorem stop_traces (env : StopEnv) (st : OrchState) :
    (promiseAllFirstErr env.closeErr = none → env.destroyErr = none →
      (stop env st).2 =
        [OrchAction.logStopping, OrchAction.closeCalled 0, OrchAction.closeCalled 1,
         OrchAction.closeCalled 2, OrchAction.logThanks, OrchAction.destroyCalled,
         OrchAction.processExit 0]) ∧
    (∀ e, promiseAllFirstErr env.closeErr = some e →
      (stop env st).2 =
        [OrchAction.logStopping, OrchAction.closeCalled 0, OrchAction.closeCalled 1,
         OrchAction.closeCalled 2, OrchAction.consoleError e,
         OrchAction.processExit 1]) ∧
    (∀ e, promiseAllFirstErr env.closeErr = none → env.destroyErr = some e →
      (stop env st).2 =
        [OrchAction.logStopping, OrchAction.closeCalled 0, OrchAction.closeCalled 1,
         OrchAction.closeCalled 2, OrchAction.logThanks, OrchAction.destroyCalled,
         OrchAction.consoleError e, OrchAction.processExit 1]) := by
  refine ⟨fun hc hd => ?_, fun e hc => ?_, fun e hc hd => ?_⟩
  · simp [stop, hc, hd]
  · simp [stop, hc]
  · simp [stop, hc, hd]

/-- Witness for C3: a clean shutdown exits 0 after closing all three
listeners and destroying the sink; a shutdown where listener 2's `close()`
rejects with error 9 falls back to `console.error` and exit code 1; a
shutdown where the sink teardown throws error 4 does the same after the
close sweep. -/
theorem stop_traces_witness :
    (stop ⟨fun _ => none, none⟩ initialOrchState).2 =
      [OrchAction.logStopping, OrchAction.closeCalled 0, OrchAction.closeCalled 1,
       OrchAction.closeCalled 2, OrchAction.logThanks, OrchAction.destroyCalled,
       OrchAction.processExit 0] ∧
    (stop ⟨fun i => if i = 2 then some 9 else none, none⟩ initialOrchState).2 =
      [OrchAction.logStopping, OrchAction.closeCalled 0, OrchAction.closeCalled 1,
       OrchAction.closeCalled 2, OrchAction.consoleError 9,
       OrchAction.processExit 1] ∧
    (stop ⟨fun _ => none, some 4⟩ initialOrchState).2 =
      [OrchAction.logStopping, OrchAction.closeCalled 0, OrchAction.closeCalled 1,
       OrchAction.closeCalled 2, OrchAction.logThanks, OrchAction.destroyCalled,
       OrchAction.consoleError 4, OrchAction.processExit 1] :=
  ⟨(stop_traces ⟨fun _ => none, none⟩ initialOrchState).1 rfl rfl,
   (stop_traces ⟨fun i => if i = 2 then some 9 else none, none⟩ initialOrchState).2.1 9 rfl,
   (stop_traces ⟨fun _ => none, some 4⟩ initialOrchState).2.2 4 rfl rfl⟩

/-- Claim C7: an error that reaches `bootstrap()`'s `catch` block once the
booting flag has been cleared (the orchestrator is `Running`) is only
logged: `stop()` is not invoked (no `close()` call appears), the process
does not exit, and the state — hence `Running` — is unchanged. -/
theorem bootstrapCatch_after_running (e : Nat) (senv : StopEnv) (st : OrchState)
    (hrun : st.isBooting = false) :
    (bootstrapCatch e senv st).1 = st ∧
    (bootstrapCatch e senv st).2 = [OrchAction.logRuntimeError e] ∧
    (∀ c, OrchAction.processExit c ∉ (bootstrapCatch e senv st).2) ∧
    (∀ i : Fin 3, OrchAction.closeCalled i ∉ (bootstrapCatch e senv st).2) := by
  have hcatch : bootstrapCatch e senv st = (st, [OrchAction.logRuntimeError e]) := by
    simp [bootstrapCatch, hrun]
  refine ⟨by rw [hcatch], by rw [hcatch], fun c => ?_, fun i => ?_⟩
  · rw [hcatch]
    simp
  · rw [hcatch]
    simp

/-- Witness for C7: error 5 arriving at the error handler with the booting
flag cleared is only logged; the state is untouched. -/
theorem bootstrapCatch_after_running_witness :
    (bootstrapCatch 5 ⟨fun _ => none, none⟩ ⟨false⟩).1 = ⟨false⟩ ∧
    (bootstrapCatch 5 ⟨fun _ => none, none⟩ ⟨false⟩).2 = [OrchAction.logRuntimeError 5] ∧
    (∀ c, OrchAction.processExit c ∉ (bootstrapCatch 5 ⟨fun _ => none, none⟩ ⟨false⟩).2) ∧
    (∀ i : Fin 3, OrchAction.closeCalled i ∉
      (bootstrapCatch 5 ⟨fun _ => none, none⟩ ⟨false⟩).2) :=
  bootstrapCatch_after_running 5 ⟨fun _ => none, none⟩ ⟨false⟩ rfl

/-! ## The protocol listener (`src/unnamed/part_001`)

Module state: a `connections` set, an `open` flag (initially false) and the
listener handle.  `listen(opts)` binds the socket and sets `open`;
`acceptConnections` calls `handleConnection(conn)` per accepted connection;
`handleConnection` builds a `Client` and loops
`while (open && !client.closed)` parsing one header per iteration;
`close()` clears `open`, closes the listener socket and sweeps the
`connections` set, swallowing `Deno.errors.BadResource` from a
`conn.close()` and rethrowing anything else.

Connections are identified by numeric handles.  Both flags read by the
session loop can change across the `await` in its body, so the loop is
driven by the finite sequence of `(open, client.closed)` values it
observes at its checks. -/

abbrev Conn := Nat

/-- Outcome of `conn.close()` for one connection: returns, throws
`Deno.errors.BadResource` (the peer already closed it), or throws some
other socket-level error `e`. -/
inductive CloseOutcome where
  | ok
  | badResource
  | otherErr (e : Nat)
  deriving Repr, DecidableEq

/-- The module-level mutable state of `part_001`: the `connections` set
(as a list in insertion order) and the `open` flag (field `openFlag`;
`open` is a reserved word in Lean). -/
structure ListenerState where
  connections : List Conn
  openFlag : Bool
  deriving Repr, DecidableEq

/-- Module initialisation: `connections` empty, `open = false`. -/
def initialListenerState : ListenerState := ⟨[], false⟩

/-- `listen(opts)`: binds the listener socket and sets `open = true`
(then starts `acceptConnections` and logs). -/
def listen (st : ListenerState) : ListenerState := { st with openFlag := true }

/-- A `Client` as constructed at the top of `handleConnection`: the
connection, its consumer, and the session's `closed` flag (initially
false). -/
structure Client where
  conn : Conn
  closed : Bool
  deriving Repr, DecidableEq

/-- The session loop of `handleConnection`, driven by the sequence of
`(open, client.closed)` pairs observed at the `while` condition: each
iteration checks the flags and, only when `open && !closed` holds, parses
one header (`parseHeaders`; both its `null` and its header result loop
again).  Returns how many header parses were begun. -/
def sessionParseCount : List (Bool × Bool) → Nat
  | [] => 0
  | f :: rest => if f.1 && !f.2 then sessionParseCount rest + 1 else 0

/-- `handleConnection(conn)` from `part_001`: constructs a `Client` over
the connection and runs the session loop.  The body reads the module
`open` flag and the client's `closed` flag and calls `parseHeaders`; no
statement of it writes the module-level `connections` set, which is
therefore returned unchanged alongside the number of parses begun. -/
def handleConnection (conn : Conn) (flags : List (Bool × Bool))
    (st : ListenerState) : ListenerState × Nat :=
  let _client : Client := ⟨conn, false⟩
  (st, sessionParseCount flags)

/-- The accept loop: `for await (const conn of listener)
handleConnection(conn)`, one entry per accepted connection together with
the flag observations of its session. -/
def acceptConnections (accepted : List (Conn × List (Bool × Bool)))
    (st : ListenerState) : ListenerState :=
  accepted.foldl (fun s c => (handleConnection c.1 c.2 s).1) st

/-- The `for (const conn of connections)` sweep inside `close()`:
`conn.close()` wrapped in `try/catch`, the catch swallowing
`Deno.errors.BadResource` and rethrowing everything else.  Returns the
connections on which `conn.close()` was attempted and the error the sweep
rethrows to the caller, if any. -/
def closeSweep (behaviour : Conn → CloseOutcome) :
    List Conn → List Conn × Option Nat
  | [] => ([], none)
  | c :: rest =>
    match behaviour c with
    | .ok =>
      let r := closeSweep behaviour rest
      (c :: r.1, r.2)
    | .badResource =>
      let r := closeSweep behaviour rest
      (c :: r.1, r.2)
    | .otherErr e => ([c], some e)

/-- `close()` from `part_001`: sets `open = false`, closes the listener
socket, then sweeps the owned connections.  Yields the final state, the
connections whose `close()` was attempted, and the rethrown error if the
sweep raised one. -/
def close (behaviour : Conn → CloseOutcome) (st : ListenerState) :
    (ListenerState × List Conn) × Option Nat :=
  let st2 : ListenerState := { st with openFlag := false }
  let r := closeSweep behaviour st2.connections
  ((st2, r.1), r.2)

theorem closeSweep_no_other_error (behaviour : Conn → CloseOutcome)
    (conns : List Conn)
    (hno : ∀ c ∈ conns, ∀ e, behaviour c ≠ CloseOutcome.otherErr e) :
    closeSweep behaviour conns = (conns, none) := by
  induction conns with
  | nil => rfl
  | cons c rest ih =>
    have hc := hno c (List.mem_cons_self c rest)
    have hrest : ∀ c2 ∈ rest, ∀ e, behaviour c2 ≠ CloseOutcome.otherErr e :=
      fun c2 hc2 => hno c2 (List.mem_cons_of_mem c hc2)
    rcases hb : behaviour c with _ | _ | e
    · rw [closeSweep, hb, ih hrest]
    · rw [closeSweep, hb, ih hrest]
    · exact absurd hb (hc e)

/-- Claim C4: during `close()`'s sweep over its sessions, a connection
whose `close()` throws the bad-resource error (already closed by the peer)
is treated as success — the sweep continues and nothing reaches the
caller — while the first connection whose `close()` throws any other
socket-level error makes `close()` rethrow exactly that error. -/
theorem close_sweep_error_policy (behaviour : Conn → CloseOutcome)
    (st : ListenerState) :
    ((∀ c ∈ st.connections, ∀ e, behaviour c ≠ CloseOutcome.otherErr e) →
      (close behaviour st).2 = none ∧
      (close behaviour st).1.2 = st.connections) ∧
    (∀ pre c post e, st.connections = pre ++ c :: post →
      (∀ c2 ∈ pre, ∀ e2, behaviour c2 ≠ CloseOutcome.otherErr e2) →
      behaviour c = CloseOutcome.otherErr e →
      (close behaviour st).2 = some e) := by
  constructor
  · intro hno
    have h := closeSweep_no_other_error behaviour st.connections hno
    constructor
    · show (closeSweep behaviour st.connections).2 = none
      rw [h]
    · show (closeSweep behaviour st.connections).1 = st.connections
      rw [h]
  · intro pre c post e hsplit hpre hc
    show (closeSweep behaviour st.connections).2 = some e
    rw [hsplit]
    clear hsplit
    induction pre with
    | nil =>
      rw [List.nil_append, closeSweep, hc]
    | cons p ps ih =>
      have hp := hpre p (List.mem_cons_self p ps)
      have hps : ∀ c2 ∈ ps, ∀ e2, behaviour c2 ≠ CloseOutcome.otherErr e2 :=
        fun c2 h2 => hpre c2 (List.mem_cons_of_mem p h2)
      rcases hb : behaviour p with _ | _ | e2
      · rw [List.cons_append, closeSweep, hb]
        exact ih hps
      · rw [List.cons_append, closeSweep, hb]
        exact ih hps
      · exact absurd hb (hp e2)

/-- Witness for C4: sweeping sessions `[1, 2, 3]` where session 2's close
throws bad-resource raises nothing and attempts all three; sweeping the
same set where session 2's close throws socket error 11 rethrows error 11
to the caller. -/
theorem close_sweep_error_policy_witness :
    ((close (fun c => if c = 2 then CloseOutcome.badResource else CloseOutcome.ok)
        ⟨[1, 2, 3], true⟩).2 = none ∧
      (close (fun c => if c = 2 then CloseOutcome.badResource else CloseOutcome.ok)
        ⟨[1, 2, 3], true⟩).1.2 = [1, 2, 3]) ∧
    (close (fun c => if c = 2 then CloseOutcome.otherErr 11 else CloseOutcome.ok)
      ⟨[1, 2, 3], true⟩).2 = some 11 :=
  ⟨(close_sweep_error_policy
      (fun c => if c = 2 then CloseOutcome.badResource else CloseOutcome.ok)
      ⟨[1, 2, 3], true⟩).1 (by intro c hc e; fin_cases hc <;> simp),
   (close_sweep_error_policy
      (fun c => if c = 2 then CloseOutcome.otherErr 11 else CloseOutcome.ok)
      ⟨[1, 2, 3], true⟩).2 [1] 2 [3] 11 rfl
      (by intro c2 hc2 e2; fin_cases hc2; simp) (by decide)⟩

theorem acceptConnections_connections (accepted : List (Conn × List (Bool × Bool)))
    (st : ListenerState) :
    (acceptConnections accepted st).connections = st.connections := by
  induction accepted generalizing st with
  | nil => rfl
  | cons a rest ih => exact ih st

/-- Claim C5 (code bug): `handleConnection` never inserts the accepted
connection into the module-level `connections` set — no statement in
`part_001` ever writes that set — so after any run of accepted
connections the set is still empty and `close()`'s sweep attempts to
close no connection socket at all, contradicting the claimed
insert-on-accept / close-on-sweep behaviour. -/
theorem accept_never_registers (accepted : List (Conn × List (Bool × Bool)))
    (behaviour : Conn → CloseOutcome) :
    (∀ conn flags st, (handleConnection conn flags st).1.connections = st.connections) ∧
    (acceptConnections accepted (listen initialListenerState)).connections = [] ∧
    (close behaviour (acceptConnections accepted (listen initialListenerState))).1.2 = [] := by
  refine ⟨fun conn flags st => rfl, ?_, ?_⟩
  · rw [acceptConnections_connections]
    rfl
  · show (closeSweep behaviour
      (acceptConnections accepted (listen initialListenerState)).connections).1 = []
    rw [acceptConnections_connections]
    rfl

/-- Claim C8: the session loop checks the pair (listener `open` flag,
session `closed` flag) before every header parse: the number of parses
begun equals the length of the longest prefix of observed checks
satisfying `open && !closed`; every begun parse saw `open = true` and
`closed = false`; and from the first check that observes a tripped flag
onward, no further parse is ever begun. -/
theorem sessionLoop_flag_guard (flags : List (Bool × Bool)) :
    sessionParseCount flags =
      (flags.takeWhile (fun f => f.1 && !f.2)).length ∧
    (∀ k (hk : k < flags.length), k < sessionParseCount flags →
      (flags.get ⟨k, hk⟩).1 = true ∧ (flags.get ⟨k, hk⟩).2 = false) ∧
    (∀ k (hk : k < flags.length),
      ((flags.get ⟨k, hk⟩).1 && !(flags.get ⟨k, hk⟩).2) = false →
      sessionParseCount flags ≤ k) := by
  refine ⟨?_, ?_, ?_⟩
  · induction flags with
    | nil => rfl
    | cons f rest ih =>
      by_cases hf : (f.1 && !f.2) = true
      · rw [sessionParseCount, if_pos hf, List.takeWhile_cons, hf]
        simp [ih]
      · rw [sessionParseCount, if_neg hf, List.takeWhile_cons]
        rw [Bool.not_eq_true] at hf
        rw [hf]
        rfl
  · induction flags with
    | nil => intro k hk; exact absurd hk (by simp)
    | cons f rest ih =>
      intro k hk hparse
      by_cases hf : (f.1 && !f.2) = true
      · match k with
        | 0 =>
          simp only [List.get] at *
          constructor
          · exact (Bool.and_eq_true _ _).mp hf |>.1
          · have := (Bool.and_eq_true _ _).mp hf |>.2
            simpa using this
        | k + 1 =>
          rw [sessionParseCount, if_pos hf] at hparse
          exact ih k (by simpa using hk) (by omega)
      · rw [sessionParseCount, if_neg hf] at hparse
        exact absurd hparse (by omega)
  · induction flags with
    | nil => intro k hk; exact absurd hk (by simp)
    | cons f rest ih =>
      intro k hk htrip
      match k with
      | 0 =>
        simp only [List.get] at htrip
        rw [sessionParseCount, if_neg (by simp [htrip])]
      | k + 1 =>
        by_cases hf : (f.1 && !f.2) = true
        · rw [sessionParseCount, if_pos hf]
          have := ih k (by simpa using hk) (by simpa using htrip)
          omega
        · rw [sessionParseCount, if_neg hf]
          omega

/-- Witness for C8: with observed checks
`[(true, false), (true, false), (false, false)]` exactly two parses begin,
the second parse saw `open = true` and `closed = false`, and after the
third check (listener no longer open) at most two parses ever began. -/
theorem sessionLoop_flag_guard_witness :
    sessionParseCount [(true, false), (true, false), (false, false)] =
      (([(true, false), (true, false), (false, false)] : List (Bool × Bool)).takeWhile
        (fun f => f.1 && !f.2)).length ∧
    (([(true, false), (true, false), (false, false)] : List (Bool × Bool)).get
      ⟨1, by decide⟩).1 = true ∧
    sessionParseCount [(true, false), (true, false), (false, false)] ≤ 2 :=
  ⟨(sessionLoop_flag_guard [(true, false), (true, false), (false, false)]).1,
   ((sessionLoop_flag_guard [(true, false), (true, false), (false, false)]).2.1
      1 (by decide) (by decide)).1,
   (sessionLoop_flag_guard [(true, false), (true, false), (false, false)]).2.2
      2 (by decide) (by decide)⟩

/-! ## The event bus (`src/lib/utils/EventBus.ts`)

The static `listeners` field is a `Map<EventId, EventListener[]>`; a JS
`Map` iterates its entries in insertion order and holds at most one entry
per key (the well-formedness hypothesis below).  Listener functions are
compared by reference (`!==`), so they are modelled as numeric references
with a separate behaviour table. -/

abbrev EventId := Nat
abbrev ListenerRef := Nat

/-- The entry list of the `listeners` map. -/
abbrev ListenerMap := List (EventId × List ListenerRef)

/-- Keys of a JS `Map` are pairwise distinct. -/
abbrev mapWF (m : ListenerMap) : Prop := (m.map Prod.fst).Nodup

/-- `Map.prototype.get`. -/
def mapGet (m : ListenerMap) (id : EventId) : Option (List ListenerRef) :=
  (m.find? (fun p => p.1 == id)).map (fun p => p.2)

/-- `Map.prototype.set`: replaces the entry for an existing key in place,
otherwise appends a fresh entry. -/
def mapSet (m : ListenerMap) (id : EventId) (v : List ListenerRef) : ListenerMap :=
  if (m.find? (fun p => p.1 == id)).isSome then
    m.map (fun p => if p.1 == id then (id, v) else p)
  else
    m ++ [(id, v)]

/-- `Map.prototype.delete`. -/
def mapDelete (m : ListenerMap) (id : EventId) : ListenerMap :=
  m.filter (fun p => !(p.1 == id))

/-- `EventBus.on(id, listener)` (source name `on`, reserved in Lean):
pushes onto the array for `id` (defaulting to `[]`) and stores it back. -/
def onEvent (m : ListenerMap) (id : EventId) (l : ListenerRef) : ListenerMap :=
  mapSet m id ((mapGet m id).getD [] ++ [l])

/-- `EventBus.off(id, listener?)` exactly as written: returns untouched
when `id` has no entry; with no listener argument deletes the entry; with
a listener argument evaluates `listeners.filter(lsFn => lsFn !== listener)`
— whose result is discarded, since `Array.prototype.filter` does not
mutate and the return value is not assigned — then re-sets the original
array under `id`. -/
def off (m : ListenerMap) (id : EventId) (l? : Option ListenerRef) : ListenerMap :=
  match mapGet m id with
  | none => m
  | some listeners =>
    match l? with
    | none => mapDelete m id
    | some l =>
      let _filtered := listeners.filter (fun lsFn => !(lsFn == l))
      mapSet m id listeners

/-- The behaviour of one listener function: the effects completed when it
returns, whether its return value is a `Promise`, and — when it is — the
effects that complete only once that promise settles. -/
structure ListenerBehaviour where
  syncEffects : List Nat → List Nat
  returnsPromise : Bool
  asyncEffects : List Nat → List Nat

/-- The imported `isPromise` module value as a JS condition.  `send`'s
wrapper tests `if (isPromise)` — the function object itself, which is
always truthy — instead of `isPromise(res)`, so the branch is taken for
every listener. -/
def isPromiseTruthy : Bool := true

/-- `await res`: awaiting a promise completes its asynchronous effects;
awaiting a non-promise value yields it immediately with no effects. -/
def awaitValue (behav : ListenerRef → ListenerBehaviour) (args : List Nat)
    (l : ListenerRef) : List Nat :=
  if (behav l).returnsPromise then (behav l).asyncEffects args else []

/-- `send`'s per-listener async wrapper:
`const res = listener(...args); if (isPromise) await res;` — the effects
completed by the time the wrapper's promise resolves. -/
def runListener (behav : ListenerRef → ListenerBehaviour) (args : List Nat)
    (l : ListenerRef) : List Nat :=
  (behav l).syncEffects args ++
    (if isPromiseTruthy then awaitValue behav args l else [])

/-- The listener functions `EventBus.send(id, ...)` dispatches to:
`[...EventBus.listeners.entries()].filter(([evId]) => evId === id)
  .flatMap(([_, lsFn]) => lsFn)`. -/
def sendRefs (m : ListenerMap) (id : EventId) : List ListenerRef :=
  (m.filter (fun p => p.1 == id)).flatMap (fun p => p.2)

/-- `EventBus.send(id, ...args)`: maps the dispatched listeners through
the wrapper and `await Promise.all(...)`; the result collects every
effect completed by the time `send`'s returned promise resolves. -/
def send (behav : ListenerRef → ListenerBehaviour) (m : ListenerMap)
    (id : EventId) (args : List Nat) : List Nat :=
  (sendRefs m id).flatMap (runListener behav args)

theorem find?_key_none (m : ListenerMap) (id : EventId)
    (h : ∀ p ∈ m, p.1 ≠ id) : m.find? (fun p => p.1 == id) = none := by
  rw [List.find?_eq_none]
  intro p hp
  simpa using h p hp

theorem sendRefs_eq_mapGet (m : ListenerMap) (id : EventId) (hwf : mapWF m) :
    sendRefs m id = (mapGet m id).getD [] := by
  induction m with
  | nil => rfl
  | cons p rest ih =>
    rw [mapWF, List.map_cons, List.nodup_cons] at hwf
    by_cases hp : p.1 = id
    · have hrest : ∀ q ∈ rest, q.1 ≠ id := by
        intro q hq hqid
        exact hwf.1 (hp ▸ hqid ▸ List.mem_map_of_mem Prod.fst hq)
      have hfilter : rest.filter (fun q => q.1 == id) = [] := by
        rw [List.filter_eq_nil_iff]
        intro q hq
        simpa using hrest q hq
      rw [sendRefs, List.filter_cons, if_pos (by simpa using hp)]
      rw [List.flatMap_cons, hfilter]
      rw [mapGet, List.find?_cons]
      have : (p.1 == id) = true := by simpa using hp
      rw [this]
      simp
    · rw [sendRefs, List.filter_cons, if_neg (by simpa using hp)]
      rw [mapGet, List.find?_cons]
      have : (p.1 == id) = false := by simpa using hp
      rw [this]
      exact ih hwf.2

/-- Claim C9: `EventBus.off(id, listener)` with the listener argument
supplied leaves both the map and the listener array for `id` unchanged —
`Array.prototype.filter` returns a new array that the code discards — so
a subsequent `send(id, ...)` dispatches to exactly the same listeners,
that listener included. -/
theorem off_with_listener_noop (behav : ListenerRef → ListenerBehaviour)
    (m : ListenerMap) (id : EventId) (l : ListenerRef) (hwf : mapWF m) :
    off m id (some l) = m ∧
    (∀ args, send behav (off m id (some l)) id args = send behav m id args) ∧
    (l ∈ sendRefs m id → l ∈ sendRefs (off m id (some l)) id) := by
  have hoff : off m id (some l) = m := by
    rcases hfind : m.find? (fun p => p.1 == id) with _ | q
    · have hget : mapGet m id = none := by rw [mapGet, hfind]; rfl
      rw [off, hget]
    · have hget : mapGet m id = some q.2 := by rw [mapGet, hfind]; rfl
      rw [off, hget]
      show mapSet m id q.2 = m
      rw [mapSet, if_pos (show (m.find? (fun p => p.1 == id)).isSome = true by rw [hfind]; rfl)]
      have hq : q ∈ m := List.mem_of_find?_eq_some hfind
      have hqid : q.1 = id := by simpa using List.find?_some hfind
      have hmap : ∀ p ∈ m, (if p.1 == id then (id, q.2) else p) = p := by
        intro p hp
        by_cases hpid : p.1 = id
        · have hpq : p = q :=
            List.inj_on_of_nodup_map hwf hp hq (by rw [hpid, hqid])
          rw [if_pos (by simpa using hpid), hpq, ← hqid]
        · rw [if_neg (by simpa using hpid)]
      calc m.map (fun p => if p.1 == id then (id, q.2) else p)
          = m.map (fun p => p) := List.map_congr_left hmap
        _ = m := by simp
  exact ⟨hoff, fun args => by rw [hoff], fun h => by rw [hoff]; exact h⟩

/-- Witness for C9: on a bus where listeners 10 and 20 are registered
under event 1, `off(1, 10)` leaves the map as it was and `send` on event
1 still dispatches to listener 10. -/
theorem off_with_listener_noop_witness :
    off [(1, [10, 20])] 1 (some 10) = [(1, [10, 20])] ∧
    (∀ args, send (fun l => ⟨fun _ => [l], false, fun _ => []⟩)
        (off [(1, [10, 20])] 1 (some 10)) 1 args =
      send (fun l => ⟨fun _ => [l], false, fun _ => []⟩) [(1, [10, 20])] 1 args) ∧
    (10 ∈ sendRefs [(1, [10, 20])] 1 →
      10 ∈ sendRefs (off [(1, [10, 20])] 1 (some 10)) 1) :=
  off_with_listener_noop (fun l => ⟨fun _ => [l], false, fun _ => []⟩)
    [(1, [10, 20])] 1 10 (by decide)

/-- Claim C10: `send(id, ...args)` dispatches to exactly the listeners
registered under `id` — entries under any other id contribute nothing —
passes them `args`, and its promise resolves only after every dispatched
listener has completed: each listener's synchronous effects and, whenever
it returns a promise, the effects of awaiting that promise are all
completed in the result (the `if (isPromise)` test is truthy for every
listener, so every returned value is awaited). -/
theorem send_dispatches_registered (behav : ListenerRef → ListenerBehaviour)
    (m : ListenerMap) (id : EventId) (args : List Nat) (hwf : mapWF m) :
    sendRefs m id = (mapGet m id).getD [] ∧
    send behav m id args = ((mapGet m id).getD []).flatMap
      (fun l => (behav l).syncEffects args ++
        (if (behav l).returnsPromise then (behav l).asyncEffects args else [])) := by
  refine ⟨sendRefs_eq_mapGet m id hwf, ?_⟩
  rw [send, sendRefs_eq_mapGet m id hwf]
  rfl

/-- Witness for C10: a bus with listeners 10 and 20 under event 1 (the
first returning a promise whose effects complete later) and listener 30
under event 2.  `send` on event 1 dispatches to exactly 10 and 20 with
the supplied arguments, completing 10's asynchronous effects as well;
listener 30 is not invoked. -/
theorem send_dispatches_registered_witness :
    sendRefs [(1, [10, 20]), (2, [30])] 1 =
      (mapGet [(1, [10, 20]), (2, [30])] 1).getD [] ∧
    send (fun l => ⟨fun args => l :: args, l == 10, fun _ => [l + 100]⟩)
        [(1, [10, 20]), (2, [30])] 1 [7] =
      ((mapGet [(1, [10, 20]), (2, [30])] 1).getD []).flatMap
        (fun l => ((fun l => (⟨fun args => l :: args, l == 10, fun _ => [l + 100]⟩ :
            ListenerBehaviour)) l).syncEffects [7] ++
          (if ((fun l => (⟨fun args => l :: args, l == 10, fun _ => [l + 100]⟩ :
              ListenerBehaviour)) l).returnsPromise
           then ((fun l => (⟨fun args => l :: args, l == 10, fun _ => [l + 100]⟩ :
              ListenerBehaviour)) l).asyncEffects [7] else [])) :=
  send_dispatches_registered (fun l => ⟨fun args => l :: args, l == 10, fun _ => [l + 100]⟩)
    [(1, [10, 20]), (2, [30])] 1 [7] (by decide)
